import Mathlib

/-!
Verification development for the UI Executor workflow
(`src/graph/ui_executor/nodes.py`, `src/graph/ui_executor/graph.py`,
`src/graph/drivers/run_ui_executor.py`).

The Python nodes are embedded shallowly: the execution state (a Python
dict, `UIExecState`) becomes a record of `Option`-valued fields (a field
being `none` models the key being absent; the code only ever reads keys
through `.get`/`setdefault`, so an absent key and the rare explicit `None`
behave the same everywhere the claims touch). Filesystem and subprocess
effects are resolved by an explicit environment record. The JUnit XML file
is modelled as an already-tokenised element tree (`XmlElem`); a file whose
content fails XML parsing is modelled as `none`.
-/

/- ### String helpers mirroring the Python primitives used by the code -/

/-- Does `needle` occur at the head of `hay`? (helper for substring search). -/
def headMatches : List Char → List Char → Bool
  | [], _ => true
  | _ :: _, [] => false
  | a :: as, b :: bs => a = b && headMatches as bs

/-- Does `needle` occur anywhere in `hay`? (helper for substring search). -/
def occursIn (needle hay : List Char) : Bool :=
  match hay with
  | [] => needle.isEmpty
  | _ :: t => headMatches needle hay || occursIn needle t

/-- Python's `needle in hay` substring test on strings. -/
def strContains (hay needle : String) : Bool :=
  occursIn needle.data hay.data

/-- The whitespace characters Python's `str.strip()` (and `float()`'s
surrounding-whitespace tolerance) removes; the ASCII set — the inputs in
play carry no exotic unicode spacing. -/
def isPyWs (c : Char) : Bool :=
  c = ' ' || c = '\t' || c = '\n' || c = '\r' || c = '\x0b' || c = '\x0c'

/-- Python's `str.strip()` with no argument: drop whitespace from both
ends. -/
def pyStrip (s : String) : String :=
  ⟨((s.data.dropWhile isPyWs).reverse.dropWhile isPyWs).reverse⟩

/-- ASCII lowering of one character (`str.lower()` per character; the
classifier's signals and tags are ASCII). -/
def lowerChar (c : Char) : Char :=
  if 'A' ≤ c && c ≤ 'Z' then Char.ofNat (c.toNat + 32) else c

/-- Python's `str.lower()`. -/
def pyLower (s : String) : String := ⟨s.data.map lowerChar⟩

/-- Numeric value of a list of decimal digit characters. -/
def digitsToNat (ds : List Char) : Nat :=
  ds.foldl (fun a c => 10 * a + (c.toNat - 48)) 0

/-- `10 ^ n` as a rational. -/
def pow10 (n : Nat) : Rat := (10 : Rat) ^ n

/-- Scale a rational by a signed power of ten (for exponent notation). -/
def applyExp (q : Rat) (e : Int) : Rat :=
  if 0 ≤ e then q * pow10 e.toNat else q / pow10 (-e).toNat

/-- Model of Python's `float(str)` conversion, returning `none` where Python
raises `ValueError`. Covers the finite decimal literals the results file
carries: optional surrounding whitespace, an optional sign, integer and/or
fractional digits, and an optional decimal exponent. (Python additionally
accepts `inf`/`nan` spellings and underscore digit grouping; no claim or
input in this development exercises those, and they are omitted.) Values
are represented exactly as rationals rather than binary floats; the claims
about durations only concern the value `0.0` and whether conversion
raises, both of which the rational model preserves. -/
def pyFloat? (x : String) : Option Rat :=
  let cs0 := (pyStrip x).data
  let signed : Bool × List Char :=
    match cs0 with
    | '-' :: r => (true, r)
    | '+' :: r => (false, r)
    | _ => (false, cs0)
  let neg := signed.1
  let cs1 := signed.2
  let intDs := cs1.takeWhile Char.isDigit
  let cs2 := cs1.dropWhile Char.isDigit
  let fracPart : List Char × List Char :=
    match cs2 with
    | '.' :: r => (r.takeWhile Char.isDigit, r.dropWhile Char.isDigit)
    | _ => ([], cs2)
  let fracDs := fracPart.1
  let cs3 := fracPart.2
  if intDs.isEmpty && fracDs.isEmpty then none
  else
    let mantissa : Rat :=
      if fracDs.isEmpty then (digitsToNat intDs : Rat)
      else (digitsToNat intDs : Rat) + (digitsToNat fracDs : Rat) / pow10 fracDs.length
    let value := if neg then -mantissa else mantissa
    match cs3 with
    | [] => some value
    | c :: r =>
      if c = 'e' || c = 'E' then
        let esigned : Bool × List Char :=
          match r with
          | '-' :: rr => (true, rr)
          | '+' :: rr => (false, rr)
          | _ => (false, r)
        let eDs := esigned.2.takeWhile Char.isDigit
        let rest := esigned.2.dropWhile Char.isDigit
        if eDs.isEmpty || !rest.isEmpty then none
        else
          let e : Int := if esigned.1 then -(digitsToNat eDs : Int) else (digitsToNat eDs : Int)
          some (applyExp value e)
      else none

/- ### XML element trees (the parsed form of the JUnit results file) -/

/-- An XML element: tag, attribute map (ElementTree attribute dicts have
unique keys, modelled as an association list), children in document
order. -/
inductive XmlElem : Type where
  | mk (tag : String) (attrs : List (String × String)) (children : List XmlElem)

/-- The element's tag. -/
def XmlElem.tag : XmlElem → String
  | .mk t _ _ => t

/-- The element's attribute list. -/
def XmlElem.attrs : XmlElem → List (String × String)
  | .mk _ a _ => a

/-- The element's direct children. -/
def XmlElem.children : XmlElem → List XmlElem
  | .mk _ _ c => c

mutual
/-- `root.iter(tag)`: every element with the given tag in document order,
the root itself included when its tag matches. -/
def iterTag (tag : String) : XmlElem → List XmlElem
  | .mk t a ch => (if t = tag then [XmlElem.mk t a ch] else []) ++ iterTagKids tag ch
/-- Document-order traversal of a list of sibling elements. -/
def iterTagKids (tag : String) : List XmlElem → List XmlElem
  | [] => []
  | e :: es => iterTag tag e ++ iterTagKids tag es
end

/-- `elem.find(tag)`: the first direct child with the given tag. -/
def findChild (e : XmlElem) (tag : String) : Option XmlElem :=
  e.children.find? (fun c => c.tag = tag)

/- ### The execution state (`UIExecState`) and case records -/

/-- The per-attempt summary dict `{total, passed, failed, skipped}`. -/
structure Summary where
  total : Nat
  passed : Nat
  failed : Nat
  skipped : Nat
deriving DecidableEq

/-- One parsed test case, as appended to `state["results"]` by
`parse_results`. -/
structure CaseResult where
  name : String
  suite : String
  time_s : Rat
  status : String
  message : String
  attempt : Int
  project : String
deriving DecidableEq

/-- The execution state dict threaded through the graph. A `none` field
models the key being absent from the dict; every read in the source goes
through `.get(...)`/`setdefault` with the defaults reproduced below. -/
structure UIExecState where
  project : Option String := none
  cwd : Option String := none
  cmd : Option (List String) := none
  junit_path : Option String := none
  env : Option (List (String × String)) := none
  attempt : Option Int := none
  max_attempts : Option Int := none
  approved : Option Bool := none
  results : Option (List CaseResult) := none
  summary : Option Summary := none
  errors : Option (List String) := none
  policy : Option String := none
  retry_scope : Option String := none
  run_rc : Option Int := none
  stdout : Option String := none
  stderr : Option String := none
deriving DecidableEq

/-- Python `int(opt or 1)` over an optional integer field read with default
`1`: absent and falsy (`0`) both collapse to `1`. -/
def intOr1 : Option Int → Int
  | none => 1
  | some v => if v = 0 then 1 else v

/-- `int(state.get("attempt", 1) or 1)`. -/
def attemptVal (s : UIExecState) : Int := intOr1 s.attempt

/-- `int(state.get("max_attempts", 1) or 1)`. -/
def maxAttemptsVal (s : UIExecState) : Int := intOr1 s.max_attempts

/-- `int(state.get("summary", {}).get("failed", 0) or 0)`. -/
def failedVal (s : UIExecState) : Nat :=
  match s.summary with
  | none => 0
  | some sm => sm.failed

/-- Append a diagnostic to `errors`, creating the list when the key is
absent (`state.setdefault("errors", []).append(msg)`). -/
def appendError (s : UIExecState) (msg : String) : UIExecState :=
  { s with errors := some ((s.errors.getD []) ++ [msg]) }

/- ### Node 1: `prepare_config` -/

/-- `prepare_config`: fill every missing key with its default, leaving
present keys untouched. -/
def prepare_config (s : UIExecState) : UIExecState :=
  { s with
    project := some (s.project.getD "ui")
    cwd := some (s.cwd.getD ".")
    cmd := some (s.cmd.getD ["npm", "run", "test:ui"])
    junit_path := some (s.junit_path.getD "results/junit-ui.xml")
    env := some (s.env.getD [])
    attempt := some (s.attempt.getD 1)
    max_attempts := some (s.max_attempts.getD 2)
    approved := some (s.approved.getD true)
    results := some (s.results.getD [])
    summary := some (s.summary.getD ⟨0, 0, 0, 0⟩)
    errors := some (s.errors.getD [])
    policy := some (s.policy.getD "flaky_only")
    retry_scope := some (s.retry_scope.getD "full") }

/- ### The effect environment (filesystem, subprocess, approval input) -/

/-- Outcome of launching the external test command: either a completed
process (return code, stdout, stderr) or an exception raised by
`subprocess.run` (e.g. command not found). -/
inductive ProcOutcome : Type where
  | ok (rc : Int) (out : String) (err : String)
  | exn (msg : String)

/-- The filesystem as the workflow observes it: the set of paths that
exist as working directories, and the results files by path. A file
mapped to `none` exists but fails XML parsing (`ET.parse` raises); a file
mapped to `some root` parses to the element `root`. A path absent from
`files` does not exist. -/
structure FileSystem where
  dirs : List String
  files : List (String × Option XmlElem)

/-- External effects: the filesystem, the subprocess launcher (given the
command, working directory and environment overrides), and the approval
prompt's reply at a given attempt (`none` models `input()` raising
`EOFError` in a non-interactive run). -/
structure Env where
  fs : FileSystem
  run : List String → String → List (String × String) → ProcOutcome
  approvalAns : Int → Option String

/-- `Path(cwd) / rel` rendered as a string. `pathlib` drops a bare `"."`
base when joining, so `Path(".") / rel` prints as `rel`. -/
def joinPath (cwd rel : String) : String :=
  if cwd = "." then rel else cwd ++ "/" ++ rel

/- ### Node 2: `execute_tests` -/

/-- `execute_tests`: refuse to launch when the working directory does not
exist (error recorded, sentinel return code 2); otherwise run the command
and capture its outcome, mapping a launch exception to return code 2 with
the message in `stderr` and an error entry. -/
def execute_tests (env : Env) (s : UIExecState) : UIExecState :=
  let cwd := s.cwd.getD "."
  if env.fs.dirs.contains cwd = false then
    let s1 := appendError s ("[execute_tests] cwd not found: " ++ cwd)
    { s1 with run_rc := some 2, stdout := some "",
              stderr := some ("Directory not found: " ++ cwd) }
  else
    match env.run (s.cmd.getD []) cwd (s.env.getD []) with
    | .ok rc out err => { s with run_rc := some rc, stdout := some out, stderr := some err }
    | .exn m =>
        let s1 := appendError s m
        { s1 with run_rc := some 2, stdout := some "",
                  stderr := some ("[execute_tests] Exception: " ++ m) }

/- ### Node 3: `parse_results` -/

/-- The per-case body of the parse loop. Returns `none` exactly when the
loop body raises, i.e. when `float` is applied to a non-empty string that
is not a valid literal (an empty or absent `time` attribute is falsy and
falls back to `0.0`). -/
def parseCase (att : Int) (tc : XmlElem) : Option CaseResult :=
  let name := (tc.attrs.lookup "name").getD ""
  let suite := (tc.attrs.lookup "classname").getD ""
  let timeRaw := (tc.attrs.lookup "time").getD "0"
  match (if timeRaw = "" then some (0 : Rat) else pyFloat? timeRaw) with
  | none => none
  | some time_s =>
      let statusMsg : String × String :=
        match findChild tc "failure" with
        | some f => ("failed", pyStrip ((f.attrs.lookup "message").getD ""))
        | none =>
            match findChild tc "skipped" with
            | some _ => ("skipped", "")
            | none => ("passed", "")
      some { name := name, suite := suite, time_s := time_s,
             status := statusMsg.1, message := statusMsg.2,
             attempt := att, project := "UI" }

/-- The parse loop over the `testcase` elements: all cases, or `none` as
soon as any iteration raises (nothing accumulated so far survives). -/
def parseAll (att : Int) : List XmlElem → Option (List CaseResult)
  | [] => some []
  | tc :: rest =>
      match parseCase att tc with
      | none => none
      | some c =>
          match parseAll att rest with
          | none => none
          | some cs => some (c :: cs)

/-- One step of the tally loop: each case increments exactly one of the
`passed`/`failed`/`skipped` counters according to its status string. -/
def tallyStep (t : Summary) (c : CaseResult) : Summary :=
  if c.status = "passed" then { t with passed := t.passed + 1 }
  else if c.status = "failed" then { t with failed := t.failed + 1 }
  else { t with skipped := t.skipped + 1 }

/-- The summary of one attempt's cases: `total = len(testcases)` and the
loop-accumulated status counters. -/
def tally (cs : List CaseResult) : Summary :=
  { cs.foldl tallyStep ⟨0, 0, 0, 0⟩ with total := cs.length }

/-- The body of `parse_results`' `try` block given the file's parse
outcome: `none` when `ET.parse` raised (malformed XML) or the case loop
raised. -/
def tryParse (att : Int) (content : Option XmlElem) : Option (List CaseResult) :=
  match content with
  | none => none
  | some root => parseAll att (iterTag "testcase" root)

/-- `parse_results`: missing file appends an error and leaves the state
otherwise unchanged; a raising parse appends an error and leaves the
state otherwise unchanged; a successful parse extends the cumulative
`results` with this attempt's cases and replaces `summary` with this
attempt's tally. (The Python error entry interpolates the exception text;
the model uses a fixed marker string, which no claim distinguishes.) -/
def parse_results (fs : FileSystem) (s : UIExecState) : UIExecState :=
  let cwd := s.cwd.getD "."
  let junit_rel := s.junit_path.getD "results/junit-ui.xml"
  let junit_path := joinPath cwd junit_rel
  match fs.files.lookup junit_path with
  | none => appendError s ("[parse_results] JUnit not found at: " ++ junit_path)
  | some content =>
      match tryParse (intOr1 s.attempt) content with
      | none => appendError s "[parse_results] Exception"
      | some cs =>
          { s with results := some ((s.results.getD []) ++ cs),
                   summary := some (tally cs) }

/- ### Node 4: `approval_checkpoint` -/

/-- `approval_checkpoint`: read a reply (indexed here by the current
attempt), strip and lowercase it; `approve`/`deny` set `approved`, any
other reply or no input (`EOFError`) keeps the previous value. -/
def approval_checkpoint (env : Env) (s : UIExecState) : UIExecState :=
  match env.approvalAns (attemptVal s) with
  | none => s
  | some raw =>
      let ans := pyLower (pyStrip raw)
      if ans = "approve" then { s with approved := some true }
      else if ans = "deny" then { s with approved := some false }
      else s

/- ### Flaky classifier and router -/

/-- The transient-signal substrings checked against a failed case's
message. -/
def transient_signals : List String :=
  ["not visible", "timeout", "timed out", "network", "navigation"]

/-- `_is_retry_eligible_ui`: title contains `@flaky`, or the message
contains a transient signal, both case-insensitively. -/
def is_retry_eligible_ui (c : CaseResult) : Bool :=
  let title := pyLower c.name
  let msg := pyLower c.message
  if strContains title "@flaky" then true
  else transient_signals.any (fun sig => strContains msg sig)

/-- `decide_after_approval`: the router returning `"retry"` or `"end"`. -/
def decide_after_approval (s : UIExecState) : String :=
  if failedVal s = 0 then "end"
  else if s.policy = some "none" then "end"
  else if s.approved = some false then "end"
  else if attemptVal s ≥ maxAttemptsVal s then "end"
  else if s.policy = some "always" then "retry"
  else
    let attempt_now := attemptVal s
    let failed_cases := (s.results.getD []).filter
      (fun c => c.attempt == attempt_now && c.status == "failed")
    if failed_cases.any is_retry_eligible_ui then "retry" else "end"

/- ### Node 5: `retry_once` -/

/-- `retry_once`: bump the attempt counter, everything else untouched. -/
def retry_once (s : UIExecState) : UIExecState :=
  { s with attempt := some (intOr1 s.attempt + 1) }

/- ### The graph's control flow and the driver -/

/-- The run/parse/approve/decide loop of the compiled graph, fuel-bounded:
each iteration executes the tests, parses the results, passes the
approval checkpoint, then either loops through `retry_once` or
terminates with the current state. `none` means the fuel ran out before
the router chose `end`. -/
def attemptLoop (env : Env) : Nat → UIExecState → Option UIExecState
  | 0, _ => none
  | fuel + 1, s =>
      let s2 := approval_checkpoint env (parse_results env.fs (execute_tests env s))
      if decide_after_approval s2 = "retry" then attemptLoop env fuel (retry_once s2)
      else some s2

/-- The whole workflow: `prepare` then the bounded retry loop. -/
def run_workflow (env : Env) (fuel : Nat) (s : UIExecState) : Option UIExecState :=
  attemptLoop env fuel (prepare_config s)

/-- The driver's parsed command-line arguments (`run_ui_executor.py`). -/
structure CliArgs where
  cwd : String
  junit : String
  max_retries : Int
  policy : String
  retry_scope : String
  env : List (String × String)
  cmd : Option (List String)

/-- The initial state dict the driver hands to the graph. -/
def initial_state (a : CliArgs) : UIExecState :=
  { project := some "ui", cwd := some a.cwd, junit_path := some a.junit,
    max_attempts := some a.max_retries, policy := some a.policy,
    retry_scope := some a.retry_scope, env := some a.env, cmd := a.cmd }

/-- The driver's process exit code: 0 exactly when the final summary
reports zero failures. -/
def driver_exit_code (final : UIExecState) : Int :=
  if failedVal final = 0 then 0 else 1

/- ### Spec-side definitions (for refinement claims, following §4.5's words) -/

/-- The classifier exactly as the spec words it: the name contains
`@flaky` case-insensitively, or the message contains, case-insensitively,
one of the five transient-signal substrings. -/
def spec_retry_eligible (c : CaseResult) : Bool :=
  strContains (pyLower c.name) "@flaky" ||
    strContains (pyLower c.message) "not visible" ||
    strContains (pyLower c.message) "timeout" ||
    strContains (pyLower c.message) "timed out" ||
    strContains (pyLower c.message) "network" ||
    strContains (pyLower c.message) "navigation"

/-- The Retry Decider exactly as the spec words its precedence list; the
`flaky_only` clause is guarded by the policy name, as written. -/
def spec_decide (s : UIExecState) : String :=
  if failedVal s = 0 then "end"
  else if s.policy = some "none" then "end"
  else if s.approved = some false then "end"
  else if attemptVal s ≥ maxAttemptsVal s then "end"
  else if s.policy = some "always" then "retry"
  else if s.policy = some "flaky_only" then
    if ((s.results.getD []).filter
        (fun c => c.attempt == attemptVal s && c.status == "failed")).any spec_retry_eligible
    then "retry" else "end"
  else "end"

/- ### Helper lemmas -/

/-- The code's early-return classifier computes the spec's disjunction. -/
lemma eligible_eq (c : CaseResult) : is_retry_eligible_ui c = spec_retry_eligible c := by
  cases h : strContains (pyLower c.name) "@flaky" <;>
    simp [is_retry_eligible_ui, spec_retry_eligible, transient_signals, h, Bool.or_assoc]

/-- The Test Runner never touches the retry bookkeeping, results, summary,
policy or approval fields. -/
lemma execute_tests_frame (env : Env) (s : UIExecState) :
    (execute_tests env s).attempt = s.attempt ∧
    (execute_tests env s).max_attempts = s.max_attempts ∧
    (execute_tests env s).results = s.results ∧
    (execute_tests env s).summary = s.summary ∧
    (execute_tests env s).policy = s.policy ∧
    (execute_tests env s).approved = s.approved ∧
    (execute_tests env s).cwd = s.cwd ∧
    (execute_tests env s).junit_path = s.junit_path := by
  simp only [execute_tests, appendError]
  split
  · simp
  · split <;> simp

/-- The Parser never touches the retry bookkeeping, approval, policy or
path fields. -/
lemma parse_results_frame (fs : FileSystem) (s : UIExecState) :
    (parse_results fs s).attempt = s.attempt ∧
    (parse_results fs s).max_attempts = s.max_attempts ∧
    (parse_results fs s).approved = s.approved ∧
    (parse_results fs s).policy = s.policy ∧
    (parse_results fs s).cwd = s.cwd ∧
    (parse_results fs s).junit_path = s.junit_path := by
  simp only [parse_results, appendError]
  split
  · simp
  · split <;> simp

/-- The Approval Gate touches only `approved`. -/
lemma approval_checkpoint_frame (env : Env) (s : UIExecState) :
    (approval_checkpoint env s).attempt = s.attempt ∧
    (approval_checkpoint env s).max_attempts = s.max_attempts ∧
    (approval_checkpoint env s).results = s.results ∧
    (approval_checkpoint env s).summary = s.summary ∧
    (approval_checkpoint env s).errors = s.errors ∧
    (approval_checkpoint env s).run_rc = s.run_rc ∧
    (approval_checkpoint env s).policy = s.policy ∧
    (approval_checkpoint env s).cwd = s.cwd ∧
    (approval_checkpoint env s).junit_path = s.junit_path := by
  simp only [approval_checkpoint]
  split
  · simp
  · split_ifs <;> simp

/-- A `retry` verdict is only reached below the attempt-cap early return. -/
lemma decide_retry_imp_lt (s : UIExecState) (h : decide_after_approval s = "retry") :
    attemptVal s < maxAttemptsVal s := by
  simp only [decide_after_approval] at h
  split_ifs at h <;> first | omega | exact absurd h (by decide)

/-- Unfolding of one loop iteration. -/
lemma attemptLoop_succ (env : Env) (n : Nat) (s : UIExecState) :
    attemptLoop env (n + 1) s =
      (if decide_after_approval (approval_checkpoint env (parse_results env.fs (execute_tests env s))) = "retry"
        then attemptLoop env n
          (retry_once (approval_checkpoint env (parse_results env.fs (execute_tests env s))))
        else some (approval_checkpoint env (parse_results env.fs (execute_tests env s)))) := rfl

/-- With fuel exceeding the remaining retry budget, the loop terminates and
the attempt cap holds in the final state. -/
lemma attemptLoop_safe (env : Env) :
    ∀ (fuel : Nat) (s : UIExecState) (a m : Int),
      s.attempt = some a → s.max_attempts = some m → 0 < a → a ≤ m →
      (m - a).toNat < fuel →
      ∃ f, attemptLoop env fuel s = some f ∧ attemptVal f ≤ maxAttemptsVal f := by
  intro fuel
  induction fuel with
  | zero => intro s a m _ _ _ _ hf; omega
  | succ n ih =>
    intro s a m ha hm ha0 ham hf
    have hane : a ≠ 0 := by omega
    have hmne : m ≠ 0 := by omega
    obtain ⟨he1, he2, -, -, -, -, -, -⟩ := execute_tests_frame env s
    obtain ⟨hp1, hp2, -, -, -, -⟩ := parse_results_frame env.fs (execute_tests env s)
    obtain ⟨hq1, hq2, -, -, -, -, -, -, -⟩ :=
      approval_checkpoint_frame env (parse_results env.fs (execute_tests env s))
    rw [attemptLoop_succ]
    set s2 := approval_checkpoint env (parse_results env.fs (execute_tests env s)) with hs2def
    have hs2a : s2.attempt = some a := by rw [hq1, hp1, he1, ha]
    have hs2m : s2.max_attempts = some m := by rw [hq2, hp2, he2, hm]
    have hav : attemptVal s2 = a := by simp [attemptVal, intOr1, hs2a, hane]
    have hmv : maxAttemptsVal s2 = m := by simp [maxAttemptsVal, intOr1, hs2m, hmne]
    by_cases hd : decide_after_approval s2 = "retry"
    · have hlt := decide_retry_imp_lt s2 hd
      rw [hav, hmv] at hlt
      rw [if_pos hd]
      refine ih (retry_once s2) (a + 1) m ?_ ?_ (by omega) (by omega) (by omega)
      · simp [retry_once, intOr1, hs2a, hane]
      · simp [retry_once, hs2m]
    · rw [if_neg hd]
      exact ⟨s2, rfl, by rw [hav, hmv]; omega⟩

/-- C2: from a prepared state (`attempt = 1`, `attempt ≤ maxAttempts`) the
retry loop is bounded — with fuel covering the retry budget it reaches a
terminal state in which `attempt ≤ maxAttempts` still holds — and every
retry transition taken from a state with a positive attempt counter
increases the attempt by exactly 1 while keeping it within the cap. -/
theorem C2_retry_loop_bounded (env : Env) (s : UIExecState) (m : Int) (fuel : Nat)
    (ha : s.attempt = some 1) (hm : s.max_attempts = some m) (h1 : 1 ≤ m)
    (hf : (m - 1).toNat < fuel) :
    (∃ f, attemptLoop env fuel s = some f ∧ attemptVal f ≤ maxAttemptsVal f) ∧
    (∀ s2 : UIExecState, 0 < attemptVal s2 → decide_after_approval s2 = "retry" →
      attemptVal (retry_once s2) = attemptVal s2 + 1 ∧
      attemptVal (retry_once s2) ≤ maxAttemptsVal (retry_once s2)) := by
  constructor
  · exact attemptLoop_safe env fuel s 1 m ha hm (by omega) h1 hf
  · intro s2 hpos hd
    have hlt := decide_retry_imp_lt s2 hd
    have hinc : attemptVal (retry_once s2) = attemptVal s2 + 1 := by
      have : attemptVal s2 + 1 ≠ 0 := by omega
      simp [retry_once, attemptVal, intOr1] at this ⊢
      simp [this]
    have hmax : maxAttemptsVal (retry_once s2) = maxAttemptsVal s2 := rfl
    exact ⟨hinc, by rw [hinc, hmax]; omega⟩

/-- A trivial concrete environment for witnesses: empty filesystem, a
subprocess stub, no approval input. -/
def trivialEnv : Env :=
  ⟨⟨[], []⟩, fun _ _ _ => .ok 0 "" "", fun _ => none⟩

/-- A concrete prepared state for the C2 witness. -/
def c2State : UIExecState :=
  { attempt := some 1, max_attempts := some 2 }

/-- Witness for C2 at a concrete prepared state and environment. -/
theorem C2_retry_loop_bounded_witness :
    c2State.attempt = some 1 ∧ c2State.max_attempts = some 2 ∧ (1 : Int) ≤ 2 ∧
    ((2 - 1 : Int).toNat < 2 ∧
      (∃ f, attemptLoop trivialEnv 2 c2State = some f ∧ attemptVal f ≤ maxAttemptsVal f)) :=
  ⟨rfl, rfl, by decide,
    ⟨by decide,
      (C2_retry_loop_bounded trivialEnv c2State 2 2 rfl rfl (by decide) (by decide)).1⟩⟩

/-- C1: over the declared policy values, the router follows exactly the
spec's precedence list — zero failures, then policy `none`, then denied
approval, then the attempt cap, each forcing `end`; then policy `always`
forcing `retry`; and for `flaky_only` a `retry` exactly when some failed
case of the current attempt is retry-eligible per the textual classifier —
and it only ever returns `end` or `retry`. -/
theorem C1_decider_matches_spec (s : UIExecState)
    (h : s.policy = some "always" ∨ s.policy = some "flaky_only" ∨ s.policy = some "none") :
    decide_after_approval s = spec_decide s ∧
    (decide_after_approval s = "end" ∨ decide_after_approval s = "retry") := by
  have hcl : is_retry_eligible_ui = spec_retry_eligible := funext eligible_eq
  constructor
  · rcases h with h | h | h <;>
      simp [decide_after_approval, spec_decide, h, hcl]
  · simp only [decide_after_approval]
    split_ifs <;> simp

/-- Concrete state for the C1 witness (spec scenario C). -/
def c1State : UIExecState :=
  { summary := some ⟨1, 0, 1, 0⟩, policy := some "flaky_only", approved := some true,
    attempt := some 1, max_attempts := some 2,
    results := some [{ name := "t", suite := "s", time_s := 0, status := "failed",
                       message := "Element not visible after timeout", attempt := 1,
                       project := "UI" }] }

/-- Witness for C1 at a concrete `flaky_only` state. -/
theorem C1_decider_matches_spec_witness :
    (c1State.policy = some "always" ∨ c1State.policy = some "flaky_only" ∨
      c1State.policy = some "none") ∧
    (decide_after_approval c1State = spec_decide c1State ∧
      (decide_after_approval c1State = "end" ∨ decide_after_approval c1State = "retry")) :=
  ⟨Or.inr (Or.inl rfl), C1_decider_matches_spec c1State (Or.inr (Or.inl rfl))⟩

/-- A state whose attempt counter is the falsy value 0 (C9
counterexample input). -/
def c9State : UIExecState := { attempt := some 0 }

/-- C9 counterexample: with `attempt = 0` in the input state, the Retry
Bookkeeper produces `attempt = 2`, not input + 1 = 1, because the falsy
value is coerced to 1 before the increment. -/
theorem C9_counterexample :
    c9State.attempt = some 0 ∧
    (retry_once c9State).attempt ≠ some (0 + 1) ∧
    (retry_once c9State).attempt = some 2 := by
  refine ⟨rfl, ?_, rfl⟩
  decide

/-- C9 (amended): for every state whose attempt field is present and
nonzero, `retry_once` returns a state whose attempt equals the input
attempt plus exactly 1, and every other field — `cmd`, `results`,
`summary` included — is identical to the input's. (When the attempt field
is absent or 0, the code coerces it to 1 first and stores 2.) -/
theorem C9_retry_bookkeeper (s : UIExecState) (n : Int)
    (ha : s.attempt = some n) (hn : n ≠ 0) :
    (retry_once s).attempt = some (n + 1) ∧
    (retry_once s).cmd = s.cmd ∧
    (retry_once s).results = s.results ∧
    (retry_once s).summary = s.summary ∧
    (retry_once s).project = s.project ∧
    (retry_once s).cwd = s.cwd ∧
    (retry_once s).junit_path = s.junit_path ∧
    (retry_once s).env = s.env ∧
    (retry_once s).max_attempts = s.max_attempts ∧
    (retry_once s).approved = s.approved ∧
    (retry_once s).errors = s.errors ∧
    (retry_once s).policy = s.policy ∧
    (retry_once s).retry_scope = s.retry_scope ∧
    (retry_once s).run_rc = s.run_rc ∧
    (retry_once s).stdout = s.stdout ∧
    (retry_once s).stderr = s.stderr := by
  refine ⟨?_, rfl, rfl, rfl, rfl, rfl, rfl, rfl, rfl, rfl, rfl, rfl, rfl, rfl, rfl, rfl⟩
  simp [retry_once, intOr1, ha, hn]

/-- Witness for C9 (amended) at a concrete state with `attempt = 1`. -/
theorem C9_retry_bookkeeper_witness :
    ({ attempt := some 1 } : UIExecState).attempt = some 1 ∧ (1 : Int) ≠ 0 ∧
    (retry_once { attempt := some 1 }).attempt = some (1 + 1) :=
  ⟨rfl, by decide, (C9_retry_bookkeeper { attempt := some 1 } 1 rfl (by decide)).1⟩

/-- The results-file path the Parser reads, as derived from the state. -/
def junitPathOf (s : UIExecState) : String :=
  joinPath (s.cwd.getD ".") (s.junit_path.getD "results/junit-ui.xml")

/-- C6: when the results file does not exist, the Parser appends exactly
one error entry and returns the state otherwise unchanged — the summary
keeps its previous value and the cumulative results list is unmodified. -/
theorem C6_missing_file_unchanged (fs : FileSystem) (s : UIExecState)
    (h : fs.files.lookup (junitPathOf s) = none) :
    (parse_results fs s).summary = s.summary ∧
    (parse_results fs s).results = s.results ∧
    (parse_results fs s).errors =
      some ((s.errors.getD []) ++ ["[parse_results] JUnit not found at: " ++ junitPathOf s]) := by
  simp only [junitPathOf] at h
  simp [parse_results, appendError, junitPathOf, h]

/-- Witness for C6: empty filesystem, state with a prior summary. -/
theorem C6_missing_file_unchanged_witness :
    (FileSystem.mk [] []).files.lookup
        (junitPathOf { summary := some ⟨3, 2, 1, 0⟩ }) = none ∧
    (parse_results ⟨[], []⟩ { summary := some ⟨3, 2, 1, 0⟩ }).summary = some ⟨3, 2, 1, 0⟩ :=
  ⟨rfl, (C6_missing_file_unchanged ⟨[], []⟩ { summary := some ⟨3, 2, 1, 0⟩ } rfl).1⟩

/-- C5: whenever parsing the results file raises — malformed XML or a
raising loop body — the Parser appends exactly one error entry and leaves
the prior summary and the prior cumulative results list exactly as they
were. -/
theorem C5_parse_exception_atomic (fs : FileSystem) (s : UIExecState)
    (content : Option XmlElem)
    (hfile : fs.files.lookup (junitPathOf s) = some content)
    (hexc : tryParse (intOr1 s.attempt) content = none) :
    (parse_results fs s).summary = s.summary ∧
    (parse_results fs s).results = s.results ∧
    (parse_results fs s).errors =
      some ((s.errors.getD []) ++ ["[parse_results] Exception"]) := by
  simp only [junitPathOf] at hfile
  simp [parse_results, appendError, hfile, hexc]

/-- Witness for C5: a results file whose XML fails to parse, against a
state carrying prior data. -/
theorem C5_parse_exception_atomic_witness :
    (FileSystem.mk ["."] [("results/junit-ui.xml", none)]).files.lookup
        (junitPathOf { summary := some ⟨1, 1, 0, 0⟩ }) = some none ∧
    tryParse (intOr1 ({ summary := some ⟨1, 1, 0, 0⟩ } : UIExecState).attempt) none = none ∧
    (parse_results ⟨["."], [("results/junit-ui.xml", none)]⟩
        { summary := some ⟨1, 1, 0, 0⟩ }).summary = some ⟨1, 1, 0, 0⟩ :=
  ⟨rfl, rfl,
    (C5_parse_exception_atomic ⟨["."], [("results/junit-ui.xml", none)]⟩
      { summary := some ⟨1, 1, 0, 0⟩ } none rfl rfl).1⟩

/-- Each tally step increments exactly one status counter, so the three
counters track the number of cases folded so far. -/
lemma tally_foldl_sum (l : List CaseResult) :
    ∀ t : Summary,
      (l.foldl tallyStep t).passed + (l.foldl tallyStep t).failed +
        (l.foldl tallyStep t).skipped = t.passed + t.failed + t.skipped + l.length := by
  induction l with
  | nil => intro t; simp
  | cons c l ih =>
      intro t
      rw [List.foldl_cons, ih]
      simp only [tallyStep]
      split_ifs <;> simp <;> omega

/-- On a successful parse, the Parser extends the cumulative results with
this attempt's cases and replaces the summary with their tally. -/
lemma parse_results_success (fs : FileSystem) (s : UIExecState)
    (root : XmlElem) (cs : List CaseResult)
    (hfile : fs.files.lookup (junitPathOf s) = some (some root))
    (hok : parseAll (intOr1 s.attempt) (iterTag "testcase" root) = some cs) :
    (parse_results fs s).results = some ((s.results.getD []) ++ cs) ∧
    (parse_results fs s).summary = some (tally cs) := by
  simp only [junitPathOf] at hfile
  constructor <;> simp [parse_results, hfile, tryParse, hok]

/-- C7: after a successful parse, the new summary is the tally of exactly
the just-parsed attempt's cases — replacing, not merging with, the
previous summary — and it satisfies
`passed + failed + skipped = total`. -/
theorem C7_summary_consistent (fs : FileSystem) (s : UIExecState)
    (root : XmlElem) (cs : List CaseResult)
    (hfile : fs.files.lookup (junitPathOf s) = some (some root))
    (hok : parseAll (intOr1 s.attempt) (iterTag "testcase" root) = some cs) :
    (parse_results fs s).summary = some (tally cs) ∧
    (tally cs).passed + (tally cs).failed + (tally cs).skipped = (tally cs).total ∧
    (parse_results fs s).results = some ((s.results.getD []) ++ cs) := by
  simp only [junitPathOf] at hfile
  refine ⟨?_, ?_, ?_⟩
  · simp [parse_results, hfile, tryParse, hok]
  · have h := tally_foldl_sum cs ⟨0, 0, 0, 0⟩
    simp only [tally]
    simpa using h
  · simp [parse_results, hfile, tryParse, hok]

/-- First test case element of the shared witness file: passing, with a
well-formed `time`. -/
def wTc1 : XmlElem :=
  .mk "testcase" [("name", "a"), ("classname", "su"), ("time", "2")] []

/-- Second test case element of the shared witness file: failing, message
carrying surrounding whitespace. -/
def wTc2 : XmlElem :=
  .mk "testcase" [("name", "b")]
    [.mk "failure" [("message", " boom ")] []]

/-- A well-formed one-suite results file with one passing and one failing
case (shared witness input for the parse claims). -/
def wRoot : XmlElem := .mk "testsuite" [] [wTc1, wTc2]

/-- The filesystem holding `wRoot` at the default results path (shared
witness input for the parse claims). -/
def wFs : FileSystem := ⟨["."], [("results/junit-ui.xml", some wRoot)]⟩

/-- The two case records parsed from `wRoot` on attempt 1. -/
def wCases : List CaseResult :=
  [{ name := "a", suite := "su", time_s := 2, status := "passed",
     message := "", attempt := 1, project := "UI" },
   { name := "b", suite := "", time_s := 0, status := "failed",
     message := "boom", attempt := 1, project := "UI" }]

/-- The traversal of the shared witness file finds its two case elements. -/
lemma wRoot_iter : iterTag "testcase" wRoot = [wTc1, wTc2] := by
  simp [wRoot, wTc1, wTc2, iterTag, iterTagKids]

/-- Evaluation of the parse loop on the shared witness file. -/
lemma wRoot_parses : parseAll 1 (iterTag "testcase" wRoot) = some wCases := by
  rw [wRoot_iter]
  decide

/-- Witness for C7 on the shared witness file against the empty state. -/
theorem C7_summary_consistent_witness :
    wFs.files.lookup (junitPathOf {}) = some (some wRoot) ∧
    parseAll (intOr1 ({} : UIExecState).attempt) (iterTag "testcase" wRoot) = some wCases ∧
    (parse_results wFs {}).summary = some (tally wCases) :=
  ⟨rfl, wRoot_parses,
    (C7_summary_consistent wFs {} wRoot wCases rfl wRoot_parses).1⟩

/-- C8: running the Parser twice on an unchanged, well-formed results file
with the attempt unchanged appends two copies of the file's cases, in
order, to the cumulative list (append-only, no deduplication), and the
summary after the second run equals its value after the first. -/
theorem C8_reparse_appends_again (fs : FileSystem) (s : UIExecState)
    (root : XmlElem) (cs : List CaseResult)
    (hfile : fs.files.lookup (junitPathOf s) = some (some root))
    (hok : parseAll (intOr1 s.attempt) (iterTag "testcase" root) = some cs) :
    (parse_results fs (parse_results fs s)).results =
      some ((s.results.getD []) ++ (cs ++ cs)) ∧
    (parse_results fs (parse_results fs s)).summary = (parse_results fs s).summary := by
  obtain ⟨hpa, -, -, -, hpcwd, hpjp⟩ := parse_results_frame fs s
  have hfile2 : fs.files.lookup (junitPathOf (parse_results fs s)) = some (some root) := by
    simp only [junitPathOf, hpcwd, hpjp]
    simp only [junitPathOf] at hfile
    exact hfile
  have hok2 : parseAll (intOr1 (parse_results fs s).attempt) (iterTag "testcase" root)
      = some cs := by
    rw [hpa]; exact hok
  obtain ⟨h1res, h1sum⟩ := parse_results_success fs s root cs hfile hok
  obtain ⟨h2res, h2sum⟩ := parse_results_success fs (parse_results fs s) root cs hfile2 hok2
  constructor
  · rw [h2res, h1res]
    simp [List.append_assoc]
  · rw [h2sum, h1sum]

/-- Witness for C8 on the shared witness file against the empty state. -/
theorem C8_reparse_appends_again_witness :
    wFs.files.lookup (junitPathOf {}) = some (some wRoot) ∧
    parseAll (intOr1 ({} : UIExecState).attempt) (iterTag "testcase" wRoot) = some wCases ∧
    (parse_results wFs (parse_results wFs {})).results =
      some ((({} : UIExecState).results.getD []) ++ (wCases ++ wCases)) :=
  ⟨rfl, wRoot_parses,
    (C8_reparse_appends_again wFs {} wRoot wCases rfl wRoot_parses).1⟩

/-- Every case the parse loop accepts carries the literal project tag
`"UI"`. -/
lemma parseCase_project (a : Int) (tc : XmlElem) (c : CaseResult)
    (h : parseCase a tc = some c) : c.project = "UI" := by
  simp only [parseCase] at h
  split at h
  · exact absurd h (by simp)
  · rw [Option.some_inj] at h
    subst h
    rfl

/-- Membership in a successful parse-loop output comes from some accepted
case. -/
lemma parseAll_project (a : Int) :
    ∀ (l : List XmlElem) (cs : List CaseResult),
      parseAll a l = some cs → ∀ c ∈ cs, c.project = "UI" := by
  intro l
  induction l with
  | nil =>
      intro cs h c hc
      simp only [parseAll, Option.some_inj] at h
      subst h
      simp at hc
  | cons tc rest ih =>
      intro cs h c hc
      simp only [parseAll] at h
      rcases h1 : parseCase a tc with _ | c0
      · rw [h1] at h; exact absurd h (by simp)
      · rw [h1] at h
        rcases h2 : parseAll a rest with _ | cs0
        · rw [h2] at h; exact absurd h (by simp)
        · rw [h2] at h
          rw [Option.some_inj] at h
          subst h
          rw [List.mem_cons] at hc
          rcases hc with rfl | hc
          · exact parseCase_project a tc c h1
          · exact ih cs0 h2 c hc

/-- C10: the Parser stamps every parsed case with the literal project tag
`"UI"`, regardless of the state's `project` field — whose own default,
filled in by the Config Preparer, is the lowercase `"ui"`. -/
theorem C10_project_tag_literal (fs : FileSystem) (s : UIExecState)
    (root : XmlElem) (cs : List CaseResult)
    (hfile : fs.files.lookup (junitPathOf s) = some (some root))
    (hok : parseAll (intOr1 s.attempt) (iterTag "testcase" root) = some cs) :
    (parse_results fs s).results = some ((s.results.getD []) ++ cs) ∧
    (∀ c ∈ cs, c.project = "UI") ∧
    (∀ t : UIExecState, t.project = none → (prepare_config t).project = some "ui") := by
  refine ⟨?_, parseAll_project _ _ _ hok, ?_⟩
  · simp only [junitPathOf] at hfile
    simp [parse_results, hfile, tryParse, hok]
  · intro t ht
    simp [prepare_config, ht]

/-- Witness for C10: the shared witness file parsed against a state whose
`project` field says `"ui"`. -/
theorem C10_project_tag_literal_witness :
    wFs.files.lookup (junitPathOf { project := some "ui" }) = some (some wRoot) ∧
    parseAll (intOr1 ({ project := some "ui" } : UIExecState).attempt)
      (iterTag "testcase" wRoot) = some wCases ∧
    (∀ c ∈ wCases, c.project = "UI") :=
  ⟨rfl, wRoot_parses,
    (C10_project_tag_literal wFs { project := some "ui" } wRoot wCases rfl
      wRoot_parses).2.1⟩

/-- Evaluation of `pyFloat?` on the default literal `"0"`. -/
lemma pyFloat?_zero : pyFloat? "0" = some (0 : Rat) := by decide

/-- When the file is missing, the Parser is exactly an error append. -/
lemma parse_results_missing (fs : FileSystem) (s : UIExecState)
    (h : fs.files.lookup (junitPathOf s) = none) :
    parse_results fs s =
      appendError s ("[parse_results] JUnit not found at: " ++ junitPathOf s) := by
  simp only [junitPathOf] at h ⊢
  simp [parse_results, h]

/-- When the parse raises, the Parser is exactly an error append. -/
lemma parse_results_raises (fs : FileSystem) (s : UIExecState) (content : Option XmlElem)
    (hfile : fs.files.lookup (junitPathOf s) = some content)
    (hexc : tryParse (intOr1 s.attempt) content = none) :
    parse_results fs s = appendError s "[parse_results] Exception" := by
  simp only [junitPathOf] at hfile
  simp [parse_results, hfile, hexc]

/-- One raising loop iteration aborts the whole parse loop. -/
lemma parseAll_none_of_mem (a : Int) :
    ∀ (l : List XmlElem) (tc : XmlElem), tc ∈ l → parseCase a tc = none →
      parseAll a l = none := by
  intro l
  induction l with
  | nil => intro tc h; simp at h
  | cons x rest ih =>
      intro tc h hnone
      rw [List.mem_cons] at h
      simp only [parseAll]
      rcases h with rfl | h
      · rw [hnone]
      · rcases h1 : parseCase a x with _ | c0
        · rfl
        · rw [ih tc h hnone]

/-- The test case element with a malformed timing attribute (C4
counterexample input). -/
def c4Case : XmlElem := .mk "testcase" [("name", "login test"), ("time", "abc")] []

/-- A results file containing `c4Case`. -/
def c4Root : XmlElem := .mk "testsuite" [] [c4Case]

/-- The filesystem holding `c4Root` at the default results path. -/
def c4Fs : FileSystem := ⟨["."], [("results/junit-ui.xml", some c4Root)]⟩

/-- A fully defaulted state for the C4 counterexample. -/
def c4State : UIExecState := prepare_config {}

/-- C4 counterexample: the timing value `"abc"` is malformed, and instead
of deriving a 0.0 duration the parse raises — the whole attempt takes the
parse-exception path (error appended, no case recorded, summary left as it
was), contradicting "a malformed timing value never causes the parse to
throw". -/
theorem C4_counterexample :
    c4Case.attrs.lookup "time" = some "abc" ∧
    parseCase 1 c4Case = none ∧
    (parse_results c4Fs c4State).errors = some ["[parse_results] Exception"] ∧
    (parse_results c4Fs c4State).summary = c4State.summary ∧
    (parse_results c4Fs c4State).results = c4State.results := by
  have hiter : iterTag "testcase" c4Root = [c4Case] := by
    simp [c4Root, c4Case, iterTag, iterTagKids]
  have hexc : tryParse (intOr1 c4State.attempt) (some c4Root) = none := by
    show parseAll (intOr1 c4State.attempt) (iterTag "testcase" c4Root) = none
    rw [hiter]
    decide
  have hfile : c4Fs.files.lookup (junitPathOf c4State) = some (some c4Root) := rfl
  have hform := parse_results_raises c4Fs c4State (some c4Root) hfile hexc
  rw [hform]
  exact ⟨rfl, by decide, rfl, rfl, rfl⟩

/-- C4 (amended): the per-case duration defaults to 0.0 exactly when the
timing attribute is absent or the empty (falsy) string; a malformed
non-empty timing value instead raises in the loop body, which aborts the
whole parse into the exception path. -/
theorem C4_time_default_or_raise (a : Int) (tc : XmlElem) :
    (tc.attrs.lookup "time" = none →
      ∃ c, parseCase a tc = some c ∧ c.time_s = 0) ∧
    (tc.attrs.lookup "time" = some "" →
      ∃ c, parseCase a tc = some c ∧ c.time_s = 0) ∧
    (∀ t, tc.attrs.lookup "time" = some t → t ≠ "" → pyFloat? t = none →
      parseCase a tc = none ∧
      ∀ root, tc ∈ iterTag "testcase" root → tryParse a (some root) = none) := by
  refine ⟨?_, ?_, ?_⟩
  · intro h
    simp only [parseCase, h, Option.getD_none]
    rw [if_neg (by decide), pyFloat?_zero]
    exact ⟨_, rfl, rfl⟩
  · intro h
    simp only [parseCase, h, Option.getD_some, if_true]
    exact ⟨_, rfl, rfl⟩
  · intro t h ht hf
    have hcase : parseCase a tc = none := by
      simp only [parseCase, h, Option.getD_some]
      rw [if_neg ht, hf]
    refine ⟨hcase, ?_⟩
    intro root hmem
    show parseAll a (iterTag "testcase" root) = none
    exact parseAll_none_of_mem a _ tc hmem hcase

/-- Witness for C4 (amended): the shared witness file's second case has no
timing attribute and parses with duration 0. -/
theorem C4_time_default_or_raise_witness :
    wTc2.attrs.lookup "time" = none ∧
    (∃ c, parseCase 1 wTc2 = some c ∧ c.time_s = 0) :=
  ⟨rfl, (C4_time_default_or_raise 1 wTc2).1 rfl⟩

/-- With a missing working directory, the Test Runner is exactly an error
append plus the sentinel exit fields — independent of the subprocess
launcher. -/
lemma execute_tests_nocwd (env : Env) (s : UIExecState)
    (h : env.fs.dirs.contains (s.cwd.getD ".") = false) :
    execute_tests env s =
      { appendError s ("[execute_tests] cwd not found: " ++ (s.cwd.getD ".")) with
        run_rc := some 2, stdout := some "",
        stderr := some ("Directory not found: " ++ (s.cwd.getD ".")) } := by
  simp only [execute_tests]
  rw [if_pos h]

/-- C3: when the working directory does not exist, the Runner does not
invoke the subprocess (its output is independent of the launcher), records
an error and exit code 2; the Parser records a separate not-found error;
the final summary is all zeros; and the driver's process exit code is 0
because `failed = 0`. -/
theorem C3_missing_workdir_degrades (a : CliArgs) (e1 e2 : Env)
    (hfs : e2.fs = e1.fs)
    (hcwd : e1.fs.dirs.contains a.cwd = false)
    (hfile : e1.fs.files.lookup (joinPath a.cwd a.junit) = none) :
    execute_tests e2 (prepare_config (initial_state a)) =
      execute_tests e1 (prepare_config (initial_state a)) ∧
    (∃ f, attemptLoop e1 1 (prepare_config (initial_state a)) = some f ∧
      f.run_rc = some 2 ∧
      f.errors = some ["[execute_tests] cwd not found: " ++ a.cwd,
        "[parse_results] JUnit not found at: " ++ joinPath a.cwd a.junit] ∧
      f.summary = some ⟨0, 0, 0, 0⟩ ∧
      driver_exit_code f = 0) := by
  set s0 := prepare_config (initial_state a) with hs0
  have hs0cg : s0.cwd.getD "." = a.cwd := rfl
  have hE1 := execute_tests_nocwd e1 s0 (by rw [hs0cg]; exact hcwd)
  have hE2 := execute_tests_nocwd e2 s0 (by rw [hs0cg, hfs]; exact hcwd)
  have h1err : (execute_tests e1 s0).errors =
      some ["[execute_tests] cwd not found: " ++ a.cwd] := by
    rw [hE1, hs0cg]
    simp [appendError, hs0, prepare_config, initial_state]
  have h1rc : (execute_tests e1 s0).run_rc = some 2 := by rw [hE1]
  obtain ⟨-, -, -, hesum, -, -, hecwd, hejp⟩ := execute_tests_frame e1 s0
  have h1sum : (execute_tests e1 s0).summary = some ⟨0, 0, 0, 0⟩ := by
    rw [hesum, hs0]
    rfl
  have hjp : junitPathOf (execute_tests e1 s0) = joinPath a.cwd a.junit := by
    simp only [junitPathOf, hecwd, hejp]
    rfl
  have hP := parse_results_missing e1.fs (execute_tests e1 s0) (by rw [hjp]; exact hfile)
  have h2err : (parse_results e1.fs (execute_tests e1 s0)).errors =
      some ["[execute_tests] cwd not found: " ++ a.cwd,
        "[parse_results] JUnit not found at: " ++ joinPath a.cwd a.junit] := by
    rw [hP, hjp]
    simp [appendError, h1err]
  have h2sum : (parse_results e1.fs (execute_tests e1 s0)).summary = some ⟨0, 0, 0, 0⟩ := by
    rw [hP]
    simp only [appendError]
    exact h1sum
  have h2rc : (parse_results e1.fs (execute_tests e1 s0)).run_rc = some 2 := by
    rw [hP]
    simp only [appendError]
    exact h1rc
  obtain ⟨-, -, -, hqsum, hqerr, hqrc, -, -, -⟩ :=
    approval_checkpoint_frame e1 (parse_results e1.fs (execute_tests e1 s0))
  have h3sum : (approval_checkpoint e1 (parse_results e1.fs (execute_tests e1 s0))).summary
      = some ⟨0, 0, 0, 0⟩ := by rw [hqsum]; exact h2sum
  have hfail : failedVal (approval_checkpoint e1 (parse_results e1.fs (execute_tests e1 s0)))
      = 0 := by simp [failedVal, h3sum]
  have hdec : decide_after_approval
      (approval_checkpoint e1 (parse_results e1.fs (execute_tests e1 s0))) = "end" := by
    simp [decide_after_approval, hfail]
  refine ⟨hE2.trans hE1.symm, ?_⟩
  refine ⟨approval_checkpoint e1 (parse_results e1.fs (execute_tests e1 s0)), ?_, ?_, ?_, ?_, ?_⟩
  · show attemptLoop e1 (0 + 1) s0 = _
    rw [attemptLoop_succ, if_neg (by rw [hdec]; decide)]
  · rw [hqrc]; exact h2rc
  · rw [hqerr]; exact h2err
  · exact h3sum
  · simp [driver_exit_code, hfail]

/-- Witness for C3: a concrete missing working directory against the empty
filesystem. -/
theorem C3_missing_workdir_degrades_witness :
    trivialEnv.fs.dirs.contains "/nope" = false ∧
    trivialEnv.fs.files.lookup (joinPath "/nope" "r.xml") = none ∧
    (∃ f, attemptLoop trivialEnv 1
        (prepare_config (initial_state ⟨"/nope", "r.xml", 2, "flaky_only", "full", [], none⟩))
        = some f ∧
      f.run_rc = some 2 ∧
      f.errors = some ["[execute_tests] cwd not found: " ++ "/nope",
        "[parse_results] JUnit not found at: " ++ joinPath "/nope" "r.xml"] ∧
      f.summary = some ⟨0, 0, 0, 0⟩ ∧
      driver_exit_code f = 0) :=
  ⟨rfl, rfl,
    (C3_missing_workdir_degrades ⟨"/nope", "r.xml", 2, "flaky_only", "full", [], none⟩
      trivialEnv trivialEnv rfl rfl rfl).2⟩
